import Mathlib

/-!
Verification of the Simple Stock Management System
(`src/simpleinventorymanagement.py`) against its specification.

The SQLite database is embedded as an explicit state (`DB`): three tables
held as lists of rows in insertion order, together with the three
`AUTOINCREMENT` counters.  Each mutating operation of the program becomes a
Lean function `DB → args → DB × Bool`, where the `Bool` records whether the
operation succeeded (the Python functions print an error message and return
without touching the database in exactly the cases where the flag is
`false`).  Python's `str.strip()` is embedded as `strip`, SQLite's binary
collation on `TEXT` as the lexicographic order on `List Char`, `REAL`
prices as rationals, and `INTEGER` quantities and stock as `Int`.
-/

/-- A row of the `Products` table. -/
structure Product where
  id : Nat
  name : String
  price : Rat
  stock : Int
deriving DecidableEq

/-- A row of the `Suppliers` table. -/
structure Supplier where
  id : Nat
  name : String
  contact : String
deriving DecidableEq

/-- The `type` column of the `Transactions` table: `'IN'` or `'OUT'`. -/
inductive TxnType where
  | tIN : TxnType
  | tOUT : TxnType
deriving DecidableEq

/-- A row of the `Transactions` table.  `supplierId` is the nullable
`supplier_id` column; `date` is the `TEXT` date column. -/
structure Txn where
  id : Nat
  productId : Nat
  supplierId : Option Nat
  quantity : Int
  date : String
  type : TxnType
deriving DecidableEq

/-- The whole database: the three tables (rows in insertion order) and the
`AUTOINCREMENT` counter of each table (SQLite hands out `nextXId` to the
next inserted row and never reuses identifiers). -/
structure DB where
  products : List Product
  suppliers : List Supplier
  transactions : List Txn
  nextProductId : Nat
  nextSupplierId : Nat
  nextTxnId : Nat
deriving DecidableEq

/-- The state `init_db` produces on a fresh file: three empty tables,
identifiers starting at 1. -/
def initDB : DB :=
  { products := [], suppliers := [], transactions := [],
    nextProductId := 1, nextSupplierId := 1, nextTxnId := 1 }

/-- Python's `str.strip()`: drop whitespace from both ends. -/
def strip (s : String) : String :=
  String.mk (((s.data.dropWhile Char.isWhitespace).reverse.dropWhile
    Char.isWhitespace).reverse)

/-- `product_exists`: `SELECT 1 FROM Products WHERE id = ?` finds a row. -/
def product_exists (db : DB) (product_id : Nat) : Bool :=
  db.products.any (fun p => p.id == product_id)

/-- `supplier_exists`: `SELECT 1 FROM Suppliers WHERE id = ?` finds a row. -/
def supplier_exists (db : DB) (supplier_id : Nat) : Bool :=
  db.suppliers.any (fun s => s.id == supplier_id)

/-- `create_product(name, price)`: strip the name, reject an empty name or a
negative price, otherwise insert one row with the default stock 0. -/
def create_product (db : DB) (name : String) (price : Rat) : DB × Bool :=
  let name := strip name
  if name = "" then (db, false)
  else if price < 0 then (db, false)
  else
    ({ db with
        products := db.products ++ [⟨db.nextProductId, name, price, 0⟩],
        nextProductId := db.nextProductId + 1 }, true)

/-- `add_supplier(name, contact)`: strip both fields, reject an empty name
or contact, otherwise insert one row. -/
def add_supplier (db : DB) (name : String) (contact : String) : DB × Bool :=
  let name := strip name
  let contact := strip contact
  if name = "" then (db, false)
  else if contact = "" then (db, false)
  else
    ({ db with
        suppliers := db.suppliers ++ [⟨db.nextSupplierId, name, contact⟩],
        nextSupplierId := db.nextSupplierId + 1 }, true)

/-- The guard `supplier_id is not None and not supplier_exists(supplier_id)`
of `add_stock`. -/
def supplier_ref_missing (db : DB) (supplier_id : Option Nat) : Bool :=
  match supplier_id with
  | none => false
  | some s => ! supplier_exists db s

/-- `UPDATE Products SET stock = stock + ? WHERE id = ?` applied to one row. -/
def bumpStock (product_id : Nat) (d : Int) (p : Product) : Product :=
  if p.id = product_id then { p with stock := p.stock + d } else p

/-- `add_stock(product_id, supplier_id, quantity)`: reject a non-positive
quantity, a missing product, or a supplied-but-missing supplier; otherwise
insert one `IN` transaction and add `quantity` to the product's stock. -/
def add_stock (db : DB) (product_id : Nat) (supplier_id : Option Nat)
    (quantity : Int) (date : String) : DB × Bool :=
  if quantity ≤ 0 then (db, false)
  else if ! product_exists db product_id then (db, false)
  else if supplier_ref_missing db supplier_id then (db, false)
  else
    ({ db with
        transactions := db.transactions ++
          [⟨db.nextTxnId, product_id, supplier_id, quantity, date, TxnType.tIN⟩],
        nextTxnId := db.nextTxnId + 1,
        products := db.products.map (bumpStock product_id quantity) }, true)

/-- `remove_stock(product_id, quantity)`: reject a non-positive quantity;
`SELECT stock FROM Products WHERE id = ?` (first matching row, as
`fetchone` does); reject a missing product or insufficient stock; otherwise
insert one `OUT` transaction with a NULL supplier and subtract `quantity`
from the product's stock. -/
def remove_stock (db : DB) (product_id : Nat) (quantity : Int)
    (date : String) : DB × Bool :=
  if quantity ≤ 0 then (db, false)
  else
    match db.products.find? (fun p => p.id == product_id) with
    | none => (db, false)
    | some row =>
      if row.stock < quantity then (db, false)
      else
        ({ db with
            transactions := db.transactions ++
              [⟨db.nextTxnId, product_id, none, quantity, date, TxnType.tOUT⟩],
            nextTxnId := db.nextTxnId + 1,
            products := db.products.map (bumpStock product_id (-quantity)) }, true)

/-- `update_product_price(product_id, new_price)`: reject a negative price
or a missing product, otherwise overwrite the price of the matching row. -/
def update_product_price (db : DB) (product_id : Nat) (new_price : Rat) :
    DB × Bool :=
  if new_price < 0 then (db, false)
  else if ! product_exists db product_id then (db, false)
  else
    ({ db with
        products := db.products.map (fun p =>
          if p.id = product_id then { p with price := new_price } else p) }, true)

/-- `del_supplier(supplier_id)`: reject a missing supplier, otherwise
`DELETE FROM Suppliers WHERE id = ?` (every matching row goes). -/
def del_supplier (db : DB) (supplier_id : Nat) : DB × Bool :=
  if ! supplier_exists db supplier_id then (db, false)
  else
    ({ db with
        suppliers := db.suppliers.filter (fun s => ! (s.id == supplier_id)) },
      true)

/-- One displayed row of `view_products_history`: the four selected
columns, with `COALESCE(Suppliers.name, 'N/A')` already applied. -/
structure HistEntry where
  date : String
  quantity : Int
  type : TxnType
  supplier : String
deriving DecidableEq

/-- The supplier column of the history query: the `LEFT JOIN` on
`supplier_id` followed by `COALESCE(Suppliers.name, 'N/A')` — `'N/A'` both
for a NULL reference and for a dangling one. -/
def supplier_label (db : DB) (supplier_id : Option Nat) : String :=
  match supplier_id with
  | none => "N/A"
  | some s =>
    match db.suppliers.find? (fun x => x.id == s) with
    | some sup => sup.name
    | none => "N/A"

/-- `ORDER BY Transactions.date DESC, Transactions.id DESC` as a Boolean
comparator: `a` may precede `b` when `a`'s date is larger (SQLite's binary
collation on `TEXT`, i.e. lexicographic on the code points) or the dates
are equal and `a`'s identifier is at least `b`'s. -/
def histLe (a b : Txn) : Bool :=
  decide (b.date.data < a.date.data ∨
    (a.date.data = b.date.data ∧ b.id ≤ a.id))

/-- `view_products_history(product_id)`: `none` when the product does not
exist, otherwise the product's transactions sorted by date then identifier,
both descending, each annotated with the supplier label. -/
def view_products_history (db : DB) (product_id : Nat) :
    Option (List HistEntry) :=
  if product_exists db product_id then
    some (((db.transactions.filter
        (fun t => t.productId == product_id)).mergeSort histLe).map
      (fun t => ⟨t.date, t.quantity, t.type, supplier_label db t.supplierId⟩))
  else none

/-- The stock of the first `Products` row with the given identifier, when
there is one. -/
def getStock (db : DB) (product_id : Nat) : Option Int :=
  (db.products.find? (fun p => p.id == product_id)).map Product.stock

/-- The states reachable from a fresh database by the store's operations. -/
inductive Reachable : DB → Prop where
  | init : Reachable initDB
  | step_create_product (db : DB) (name : String) (price : Rat) :
      Reachable db → Reachable (create_product db name price).1
  | step_add_supplier (db : DB) (name contact : String) :
      Reachable db → Reachable (add_supplier db name contact).1
  | step_add_stock (db : DB) (product_id : Nat) (supplier_id : Option Nat)
      (quantity : Int) (date : String) :
      Reachable db → Reachable (add_stock db product_id supplier_id quantity date).1
  | step_remove_stock (db : DB) (product_id : Nat) (quantity : Int)
      (date : String) :
      Reachable db → Reachable (remove_stock db product_id quantity date).1
  | step_update_product_price (db : DB) (product_id : Nat) (new_price : Rat) :
      Reachable db → Reachable (update_product_price db product_id new_price).1
  | step_del_supplier (db : DB) (supplier_id : Nat) :
      Reachable db → Reachable (del_supplier db supplier_id).1

/-- Total quantity of the transactions of one product and one type:
the ledger-side of the stock invariant. -/
def qtySum (product_id : Nat) (ty : TxnType) (ts : List Txn) : Int :=
  ((ts.filter (fun t => t.productId == product_id && t.type == ty)).map
    Txn.quantity).sum

/-- A string with no leading and no trailing whitespace. -/
def edgeClean (s : String) : Prop :=
  (∀ c ∈ s.data.head?, c.isWhitespace = false) ∧
  (∀ c ∈ s.data.getLast?, c.isWhitespace = false)

/-! ### Branch equations of the operations -/

theorem create_product_neg (d : DB) (n : String) (c : Rat)
    (h : strip n = "" ∨ c < 0) : create_product d n c = (d, false) := by
  unfold create_product
  rcases h with h | h
  · simp [h]
  · rcases eq_or_ne (strip n) "" with h2 | h2 <;> simp [h, h2]

theorem create_product_pos (d : DB) (n : String) (c : Rat)
    (h1 : ¬ strip n = "") (h2 : ¬ c < 0) :
    create_product d n c =
      ({ d with
          products := d.products ++ [⟨d.nextProductId, strip n, c, 0⟩],
          nextProductId := d.nextProductId + 1 }, true) := by
  unfold create_product
  simp [h1, h2]

theorem add_supplier_neg (d : DB) (n c : String)
    (h : strip n = "" ∨ strip c = "") : add_supplier d n c = (d, false) := by
  unfold add_supplier
  rcases h with h | h
  · simp [h]
  · rcases eq_or_ne (strip n) "" with h2 | h2 <;> simp [h, h2]

theorem add_supplier_pos (d : DB) (n c : String)
    (h1 : ¬ strip n = "") (h2 : ¬ strip c = "") :
    add_supplier d n c =
      ({ d with
          suppliers := d.suppliers ++ [⟨d.nextSupplierId, strip n, strip c⟩],
          nextSupplierId := d.nextSupplierId + 1 }, true) := by
  unfold add_supplier
  simp [h1, h2]

theorem add_stock_neg (d : DB) (pid : Nat) (s : Option Nat) (q : Int)
    (t : String)
    (h : q ≤ 0 ∨ product_exists d pid = false ∨ supplier_ref_missing d s = true) :
    add_stock d pid s q t = (d, false) := by
  unfold add_stock
  rcases h with h | h | h
  · simp [h]
  · by_cases h1 : q ≤ 0 <;> simp [h, h1]
  · by_cases h1 : q ≤ 0
    · simp [h1]
    · by_cases h2 : product_exists d pid <;> simp [h, h1, h2]

theorem add_stock_pos (d : DB) (pid : Nat) (s : Option Nat) (q : Int)
    (t : String) (h1 : ¬ q ≤ 0) (h2 : product_exists d pid = true)
    (h3 : supplier_ref_missing d s = false) :
    add_stock d pid s q t =
      ({ d with
          transactions := d.transactions ++
            [⟨d.nextTxnId, pid, s, q, t, TxnType.tIN⟩],
          nextTxnId := d.nextTxnId + 1,
          products := d.products.map (bumpStock pid q) }, true) := by
  unfold add_stock
  simp [h1, h2, h3]

theorem remove_stock_neg_qty (d : DB) (pid : Nat) (q : Int) (t : String)
    (h : q ≤ 0) : remove_stock d pid q t = (d, false) := by
  unfold remove_stock
  simp [h]

theorem remove_stock_neg_missing (d : DB) (pid : Nat) (q : Int) (t : String)
    (h1 : ¬ q ≤ 0) (h2 : d.products.find? (fun p => p.id == pid) = none) :
    remove_stock d pid q t = (d, false) := by
  unfold remove_stock
  simp [h1, h2]

theorem remove_stock_neg_short (d : DB) (pid : Nat) (q : Int) (t : String)
    (w : Product) (h1 : ¬ q ≤ 0)
    (h2 : d.products.find? (fun p => p.id == pid) = some w)
    (h3 : w.stock < q) : remove_stock d pid q t = (d, false) := by
  unfold remove_stock
  simp [h1, h2, h3]

theorem remove_stock_pos (d : DB) (pid : Nat) (q : Int) (t : String)
    (w : Product) (h1 : ¬ q ≤ 0)
    (h2 : d.products.find? (fun p => p.id == pid) = some w)
    (h3 : ¬ w.stock < q) :
    remove_stock d pid q t =
      ({ d with
          transactions := d.transactions ++
            [⟨d.nextTxnId, pid, none, q, t, TxnType.tOUT⟩],
          nextTxnId := d.nextTxnId + 1,
          products := d.products.map (bumpStock pid (-q)) }, true) := by
  unfold remove_stock
  simp [h1, h2, h3]

theorem update_product_price_neg (d : DB) (pid : Nat) (c : Rat)
    (h : c < 0 ∨ product_exists d pid = false) :
    update_product_price d pid c = (d, false) := by
  unfold update_product_price
  rcases h with h | h
  · simp [h]
  · by_cases h1 : c < 0 <;> simp [h, h1]

theorem update_product_price_pos (d : DB) (pid : Nat) (c : Rat)
    (h1 : ¬ c < 0) (h2 : product_exists d pid = true) :
    update_product_price d pid c =
      ({ d with
          products := d.products.map (fun p =>
            if p.id = pid then { p with price := c } else p) }, true) := by
  unfold update_product_price
  simp [h1, h2]

theorem del_supplier_neg (d : DB) (s : Nat)
    (h : supplier_exists d s = false) : del_supplier d s = (d, false) := by
  unfold del_supplier
  simp [h]

theorem del_supplier_pos (d : DB) (s : Nat)
    (h : supplier_exists d s = true) :
    del_supplier d s =
      ({ d with
          suppliers := d.suppliers.filter (fun x => ! (x.id == s)) }, true) := by
  unfold del_supplier
  simp [h]

/-! ### List and string helper lemmas -/

theorem bumpStock_id (k : Nat) (d : Int) (p : Product) :
    (bumpStock k d p).id = p.id := by
  unfold bumpStock
  split <;> rfl

theorem bumpStock_name (k : Nat) (d : Int) (p : Product) :
    (bumpStock k d p).name = p.name := by
  unfold bumpStock
  split <;> rfl

theorem map_id_bump (k : Nat) (d : Int) (l : List Product) :
    (l.map (bumpStock k d)).map Product.id = l.map Product.id := by
  rw [List.map_map]
  exact List.map_congr_left fun p _ => bumpStock_id k d p

theorem product_exists_iff (d : DB) (k : Nat) :
    product_exists d k = true ↔ ∃ p ∈ d.products, p.id = k := by
  simp [product_exists, List.any_eq_true]

theorem supplier_exists_iff (d : DB) (k : Nat) :
    supplier_exists d k = true ↔ ∃ s ∈ d.suppliers, s.id = k := by
  simp [supplier_exists, List.any_eq_true]

theorem product_exists_false_iff (d : DB) (k : Nat) :
    product_exists d k = false ↔
      d.products.find? (fun p => p.id == k) = none := by
  rw [List.find?_eq_none, ← Bool.not_eq_true, product_exists_iff]
  push_neg
  simp

theorem find?_key_eq {α : Type} (key : α → Nat) :
    ∀ (l : List α) (e : α), (l.map key).Nodup → e ∈ l →
      l.find? (fun x => key x == key e) = some e := by
  intro l
  induction l with
  | nil => intro e _ he; cases he
  | cons a t ih =>
    intro e hnd he
    rw [List.map_cons, List.nodup_cons] at hnd
    rcases List.mem_cons.1 he with rfl | het
    · exact List.find?_cons_of_pos _ (by simp)
    · have hne : key a ≠ key e := by
        intro h
        exact hnd.1 (h ▸ List.mem_map_of_mem key het)
      rw [List.find?_cons_of_neg _ (by simp [hne])]
      exact ih e hnd.2 het

theorem filter_key_eq {α : Type} (key : α → Nat) :
    ∀ (l : List α) (e : α), (l.map key).Nodup → e ∈ l →
      l.filter (fun x => key x == key e) = [e] := by
  intro l
  induction l with
  | nil => intro e _ he; cases he
  | cons a t ih =>
    intro e hnd he
    rw [List.map_cons, List.nodup_cons] at hnd
    rcases List.mem_cons.1 he with rfl | het
    · rw [List.filter_cons_of_pos (by simp)]
      have : t.filter (fun x => key x == key e) = [] := by
        rw [List.filter_eq_nil_iff]
        intro x hx h
        have hxe : key x = key e := beq_iff_eq.1 h
        exact hnd.1 (hxe ▸ List.mem_map_of_mem key hx)
      rw [this]
    · have hne : key a ≠ key e := by
        intro h
        exact hnd.1 (h ▸ List.mem_map_of_mem key het)
      rw [List.filter_cons_of_neg (by simp [hne])]
      exact ih e hnd.2 het

theorem qtySum_append (k : Nat) (ty : TxnType) (l : List Txn) (t : Txn) :
    qtySum k ty (l ++ [t]) =
      qtySum k ty l +
        (if t.productId = k ∧ t.type = ty then t.quantity else 0) := by
  by_cases h1 : t.productId = k
  · by_cases h2 : t.type = ty
    · have hb : (t.productId == k && t.type == ty) = true := by simp [h1, h2]
      simp [qtySum, List.filter_append, List.filter_cons, hb, h1, h2]
    · have hb : (t.productId == k && t.type == ty) = false := by simp [h2]
      simp [qtySum, List.filter_append, List.filter_cons, hb, h1, h2]
  · have hb : (t.productId == k && t.type == ty) = false := by simp [h1]
    simp [qtySum, List.filter_append, List.filter_cons, hb, h1]

theorem qtySum_of_no_ref (k : Nat) (ty : TxnType) (l : List Txn)
    (h : ∀ t ∈ l, t.productId ≠ k) : qtySum k ty l = 0 := by
  have he : l.filter (fun t => t.productId == k && t.type == ty) = [] := by
    rw [List.filter_eq_nil_iff]
    intro t ht
    simp [h t ht]
  simp [qtySum, he]

theorem head?_dropWhile_not {α : Type} (p : α → Bool) :
    ∀ (l : List α) (c : α), c ∈ (l.dropWhile p).head? → p c = false := by
  intro l
  induction l with
  | nil => intro c hc; simp [List.dropWhile] at hc
  | cons a t ih =>
    intro c hc
    by_cases h : p a = true
    · rw [List.dropWhile_cons_of_pos h] at hc
      exact ih c hc
    · rw [List.dropWhile_cons_of_neg h] at hc
      simp only [List.head?_cons, Option.mem_def, Option.some.injEq] at hc
      subst hc
      exact Bool.not_eq_true _ ▸ h

theorem getLast?_dropWhile_mem {α : Type} (p : α → Bool) (l : List α)
    (c : α) (hc : c ∈ (l.dropWhile p).getLast?) : c ∈ l.getLast? := by
  have hs : (l.dropWhile p).getLast? = some c := hc
  have h2 : l.getLast? = some c := by
    rw [← List.takeWhile_append_dropWhile (p := p) (l := l),
      List.getLast?_append, hs]
    rfl
  exact Option.mem_def.2 h2

theorem edgeClean_strip (s : String) : edgeClean (strip s) := by
  constructor
  · intro c hc
    have h1 : c ∈ (((s.data.dropWhile Char.isWhitespace).reverse.dropWhile
        Char.isWhitespace)).getLast? := by
      simpa [strip, List.head?_reverse] using hc
    have h2 := getLast?_dropWhile_mem Char.isWhitespace _ c h1
    rw [List.getLast?_reverse] at h2
    exact head?_dropWhile_not Char.isWhitespace _ c h2
  · intro c hc
    have h1 : c ∈ (((s.data.dropWhile Char.isWhitespace).reverse.dropWhile
        Char.isWhitespace)).head? := by
      simpa [strip, List.getLast?_reverse] using hc
    exact head?_dropWhile_not Char.isWhitespace _ c h1

/-! ### The reachable-state invariant -/

/-- Invariant of every reachable database state: identifiers are below the
table's counter and pairwise distinct, every transaction references an
existing product, each product's stock is its transaction ledger sum and is
non-negative, and all stored text fields are stripped. -/
structure DBInv (db : DB) : Prop where
  prodId_lt : ∀ p ∈ db.products, p.id < db.nextProductId
  prodId_nodup : (db.products.map Product.id).Nodup
  suppId_lt : ∀ s ∈ db.suppliers, s.id < db.nextSupplierId
  suppId_nodup : (db.suppliers.map Supplier.id).Nodup
  txn_prod : ∀ t ∈ db.transactions, ∃ p ∈ db.products, p.id = t.productId
  stock_eq : ∀ p ∈ db.products,
    p.stock = qtySum p.id TxnType.tIN db.transactions -
      qtySum p.id TxnType.tOUT db.transactions
  stock_nonneg : ∀ p ∈ db.products, 0 ≤ p.stock
  names_clean : ∀ p ∈ db.products, edgeClean p.name
  supp_clean : ∀ s ∈ db.suppliers, edgeClean s.name ∧ edgeClean s.contact

theorem inv_initDB : DBInv initDB := by
  constructor <;> simp [initDB]

theorem inv_create_product (d : DB) (n : String) (c : Rat) (h : DBInv d) :
    DBInv (create_product d n c).1 := by
  by_cases h1 : strip n = ""
  · rw [create_product_neg d n c (Or.inl h1)]
    exact h
  by_cases h2 : c < 0
  · rw [create_product_neg d n c (Or.inr h2)]
    exact h
  rw [create_product_pos d n c h1 h2]
  have hz : ∀ y : TxnType, qtySum d.nextProductId y d.transactions = 0 := by
    intro y
    apply qtySum_of_no_ref
    intro t ht
    obtain ⟨p, hp, hid⟩ := h.txn_prod t ht
    have := h.prodId_lt p hp
    omega
  refine ⟨?_, ?_, ?_, ?_, ?_, ?_, ?_, ?_, ?_⟩
  · intro p hp
    rcases List.mem_append.1 hp with hp | hp
    · exact Nat.lt_succ_of_lt (h.prodId_lt p hp)
    · rcases List.mem_singleton.1 hp with rfl
      exact Nat.lt_succ_self _
  · rw [List.map_append, List.nodup_append]
    refine ⟨h.prodId_nodup, by simp, ?_⟩
    intro a ha hb
    rcases List.mem_map.1 ha with ⟨p, hp, rfl⟩
    have h3 := h.prodId_lt p hp
    simp only [List.map_cons, List.map_nil, List.mem_singleton] at hb
    omega
  · exact h.suppId_lt
  · exact h.suppId_nodup
  · intro t ht
    obtain ⟨p, hp, hid⟩ := h.txn_prod t ht
    exact ⟨p, List.mem_append_left _ hp, hid⟩
  · intro p hp
    rcases List.mem_append.1 hp with hp | hp
    · exact h.stock_eq p hp
    · rcases List.mem_singleton.1 hp with rfl
      simp [hz]
  · intro p hp
    rcases List.mem_append.1 hp with hp | hp
    · exact h.stock_nonneg p hp
    · rcases List.mem_singleton.1 hp with rfl
      exact le_refl 0
  · intro p hp
    rcases List.mem_append.1 hp with hp | hp
    · exact h.names_clean p hp
    · rcases List.mem_singleton.1 hp with rfl
      exact edgeClean_strip n
  · exact h.supp_clean

theorem inv_add_supplier (d : DB) (n c : String) (h : DBInv d) :
    DBInv (add_supplier d n c).1 := by
  by_cases h1 : strip n = ""
  · rw [add_supplier_neg d n c (Or.inl h1)]
    exact h
  by_cases h2 : strip c = ""
  · rw [add_supplier_neg d n c (Or.inr h2)]
    exact h
  rw [add_supplier_pos d n c h1 h2]
  refine ⟨h.prodId_lt, h.prodId_nodup, ?_, ?_, h.txn_prod, h.stock_eq,
    h.stock_nonneg, h.names_clean, ?_⟩
  · intro s hs
    rcases List.mem_append.1 hs with hs | hs
    · exact Nat.lt_succ_of_lt (h.suppId_lt s hs)
    · rcases List.mem_singleton.1 hs with rfl
      exact Nat.lt_succ_self _
  · rw [List.map_append, List.nodup_append]
    refine ⟨h.suppId_nodup, by simp, ?_⟩
    intro a ha hb
    rcases List.mem_map.1 ha with ⟨s, hs, rfl⟩
    have h3 := h.suppId_lt s hs
    simp only [List.map_cons, List.map_nil, List.mem_singleton] at hb
    omega
  · intro s hs
    rcases List.mem_append.1 hs with hs | hs
    · exact h.supp_clean s hs
    · rcases List.mem_singleton.1 hs with rfl
      exact ⟨edgeClean_strip n, edgeClean_strip c⟩

theorem inv_add_stock (d : DB) (pid : Nat) (s : Option Nat) (q : Int)
    (t : String) (h : DBInv d) : DBInv (add_stock d pid s q t).1 := by
  by_cases h1 : q ≤ 0
  · rw [add_stock_neg d pid s q t (Or.inl h1)]
    exact h
  by_cases h2 : product_exists d pid = true
  case neg =>
    rw [add_stock_neg d pid s q t (Or.inr (Or.inl (by simpa using h2)))]
    exact h
  by_cases h3 : supplier_ref_missing d s = true
  · rw [add_stock_neg d pid s q t (Or.inr (Or.inr h3))]
    exact h
  rw [add_stock_pos d pid s q t h1 h2 (by simpa using h3)]
  refine ⟨?_, ?_, h.suppId_lt, h.suppId_nodup, ?_, ?_, ?_, ?_, h.supp_clean⟩
  · intro p hp
    rcases List.mem_map.1 hp with ⟨p0, hp0, rfl⟩
    rw [bumpStock_id]
    exact h.prodId_lt p0 hp0
  · rw [map_id_bump]
    exact h.prodId_nodup
  · intro x hx
    rcases List.mem_append.1 hx with hx | hx
    · obtain ⟨p, hp, hid⟩ := h.txn_prod x hx
      exact ⟨bumpStock pid q p, List.mem_map_of_mem _ hp,
        (bumpStock_id pid q p).trans hid⟩
    · rcases List.mem_singleton.1 hx with rfl
      obtain ⟨p, hp, hid⟩ := (product_exists_iff d pid).1 h2
      exact ⟨bumpStock pid q p, List.mem_map_of_mem _ hp,
        (bumpStock_id pid q p).trans hid⟩
  · intro p hp
    rcases List.mem_map.1 hp with ⟨p0, hp0, rfl⟩
    have hst := h.stock_eq p0 hp0
    by_cases hid : p0.id = pid
    · have hb : bumpStock pid q p0 = { p0 with stock := p0.stock + q } := by
        simp [bumpStock, hid]
      rw [hb]
      simp only
      rw [qtySum_append, qtySum_append,
        if_pos (And.intro hid.symm rfl), if_neg (by simp)]
      dsimp only
      omega
    · have hb : bumpStock pid q p0 = p0 := by simp [bumpStock, hid]
      rw [hb]
      rw [qtySum_append, qtySum_append,
        if_neg (fun hc => hid hc.1.symm), if_neg (by simp)]
      omega
  · intro p hp
    rcases List.mem_map.1 hp with ⟨p0, hp0, rfl⟩
    have hst := h.stock_nonneg p0 hp0
    by_cases hid : p0.id = pid
    · have hb : bumpStock pid q p0 = { p0 with stock := p0.stock + q } := by
        simp [bumpStock, hid]
      rw [hb]
      simp only
      omega
    · have hb : bumpStock pid q p0 = p0 := by simp [bumpStock, hid]
      rw [hb]
      exact hst
  · intro p hp
    rcases List.mem_map.1 hp with ⟨p0, hp0, rfl⟩
    rw [bumpStock_name]
    exact h.names_clean p0 hp0

theorem inv_remove_stock (d : DB) (pid : Nat) (q : Int) (t : String)
    (h : DBInv d) : DBInv (remove_stock d pid q t).1 := by
  by_cases h1 : q ≤ 0
  · rw [remove_stock_neg_qty d pid q t h1]
    exact h
  cases hf : d.products.find? (fun p => p.id == pid) with
  | none =>
    rw [remove_stock_neg_missing d pid q t h1 hf]
    exact h
  | some w =>
    by_cases h3 : w.stock < q
    · rw [remove_stock_neg_short d pid q t w h1 hf h3]
      exact h
    rw [remove_stock_pos d pid q t w h1 hf h3]
    have hwid : w.id = pid := by simpa using List.find?_some hf
    have huniq : ∀ p0 ∈ d.products, p0.id = pid → p0 = w := by
      intro p0 hp0 hid
      have hf2 := find?_key_eq Product.id d.products p0 h.prodId_nodup hp0
      rw [hid] at hf2
      rw [hf] at hf2
      exact (Option.some_inj.1 hf2).symm
    refine ⟨?_, ?_, h.suppId_lt, h.suppId_nodup, ?_, ?_, ?_, ?_, h.supp_clean⟩
    · intro p hp
      rcases List.mem_map.1 hp with ⟨p0, hp0, rfl⟩
      rw [bumpStock_id]
      exact h.prodId_lt p0 hp0
    · rw [map_id_bump]
      exact h.prodId_nodup
    · intro x hx
      rcases List.mem_append.1 hx with hx | hx
      · obtain ⟨p, hp, hid⟩ := h.txn_prod x hx
        exact ⟨bumpStock pid (-q) p, List.mem_map_of_mem _ hp,
          (bumpStock_id pid (-q) p).trans hid⟩
      · rcases List.mem_singleton.1 hx with rfl
        exact ⟨bumpStock pid (-q) w,
          List.mem_map_of_mem _ (List.mem_of_find?_eq_some hf),
          (bumpStock_id pid (-q) w).trans hwid⟩
    · intro p hp
      rcases List.mem_map.1 hp with ⟨p0, hp0, rfl⟩
      have hst := h.stock_eq p0 hp0
      by_cases hid : p0.id = pid
      · have hb : bumpStock pid (-q) p0 = { p0 with stock := p0.stock + -q } := by
          simp [bumpStock, hid]
        rw [hb]
        simp only
        rw [qtySum_append, qtySum_append, if_neg (by simp),
          if_pos (And.intro hid.symm rfl)]
        dsimp only
        omega
      · have hb : bumpStock pid (-q) p0 = p0 := by simp [bumpStock, hid]
        rw [hb]
        rw [qtySum_append, qtySum_append, if_neg (by simp),
          if_neg (fun hc => hid hc.1.symm)]
        omega
    · intro p hp
      rcases List.mem_map.1 hp with ⟨p0, hp0, rfl⟩
      have hst := h.stock_nonneg p0 hp0
      by_cases hid : p0.id = pid
      · have hpw : p0 = w := huniq p0 hp0 hid
        have hb : bumpStock pid (-q) p0 = { p0 with stock := p0.stock + -q } := by
          simp [bumpStock, hid]
        rw [hb]
        simp only
        rw [hpw]
        omega
      · have hb : bumpStock pid (-q) p0 = p0 := by simp [bumpStock, hid]
        rw [hb]
        exact hst
    · intro p hp
      rcases List.mem_map.1 hp with ⟨p0, hp0, rfl⟩
      rw [bumpStock_name]
      exact h.names_clean p0 hp0

theorem setPrice_id (k : Nat) (c : Rat) (p : Product) :
    (if p.id = k then { p with price := c } else p).id = p.id := by
  split <;> rfl

theorem setPrice_name (k : Nat) (c : Rat) (p : Product) :
    (if p.id = k then { p with price := c } else p).name = p.name := by
  split <;> rfl

theorem setPrice_stock (k : Nat) (c : Rat) (p : Product) :
    (if p.id = k then { p with price := c } else p).stock = p.stock := by
  split <;> rfl

theorem inv_update_product_price (d : DB) (pid : Nat) (c : Rat)
    (h : DBInv d) : DBInv (update_product_price d pid c).1 := by
  by_cases h1 : c < 0
  · rw [update_product_price_neg d pid c (Or.inl h1)]
    exact h
  by_cases h2 : product_exists d pid = true
  case neg =>
    rw [update_product_price_neg d pid c (Or.inr (by simpa using h2))]
    exact h
  rw [update_product_price_pos d pid c h1 h2]
  refine ⟨?_, ?_, h.suppId_lt, h.suppId_nodup, ?_, ?_, ?_, ?_, h.supp_clean⟩
  · intro p hp
    rcases List.mem_map.1 hp with ⟨p0, hp0, rfl⟩
    rw [setPrice_id]
    exact h.prodId_lt p0 hp0
  · have hm : (d.products.map (fun p =>
        if p.id = pid then { p with price := c } else p)).map Product.id =
        d.products.map Product.id := by
      rw [List.map_map]
      exact List.map_congr_left fun p _ => setPrice_id pid c p
    rw [hm]
    exact h.prodId_nodup
  · intro x hx
    obtain ⟨p, hp, hid⟩ := h.txn_prod x hx
    exact ⟨_, List.mem_map_of_mem _ hp, (setPrice_id pid c p).trans hid⟩
  · intro p hp
    rcases List.mem_map.1 hp with ⟨p0, hp0, rfl⟩
    rw [setPrice_id, setPrice_stock]
    exact h.stock_eq p0 hp0
  · intro p hp
    rcases List.mem_map.1 hp with ⟨p0, hp0, rfl⟩
    rw [setPrice_stock]
    exact h.stock_nonneg p0 hp0
  · intro p hp
    rcases List.mem_map.1 hp with ⟨p0, hp0, rfl⟩
    rw [setPrice_name]
    exact h.names_clean p0 hp0

theorem inv_del_supplier (d : DB) (k : Nat) (h : DBInv d) :
    DBInv (del_supplier d k).1 := by
  by_cases h1 : supplier_exists d k = true
  case neg =>
    rw [del_supplier_neg d k (by simpa using h1)]
    exact h
  rw [del_supplier_pos d k h1]
  refine ⟨h.prodId_lt, h.prodId_nodup, ?_, ?_, h.txn_prod, h.stock_eq,
    h.stock_nonneg, h.names_clean, ?_⟩
  · intro s hs
    exact h.suppId_lt s (List.mem_filter.1 hs).1
  · exact h.suppId_nodup.sublist
      (List.Sublist.map Supplier.id (List.filter_sublist _))
  · intro s hs
    exact h.supp_clean s (List.mem_filter.1 hs).1

theorem inv_of_reachable (d : DB) (h : Reachable d) : DBInv d := by
  induction h with
  | init => exact inv_initDB
  | step_create_product d n c _ ih => exact inv_create_product d n c ih
  | step_add_supplier d n c _ ih => exact inv_add_supplier d n c ih
  | step_add_stock d pid s q t _ ih => exact inv_add_stock d pid s q t ih
  | step_remove_stock d pid q t _ ih => exact inv_remove_stock d pid q t ih
  | step_update_product_price d pid c _ ih =>
    exact inv_update_product_price d pid c ih
  | step_del_supplier d k _ ih => exact inv_del_supplier d k ih

/-! ### Specifications of the single operations -/

theorem find?_map_bump (k : Nat) (x : Int) (l : List Product) :
    (l.map (bumpStock k x)).find? (fun p => p.id == k) =
      (l.find? (fun p => p.id == k)).map (bumpStock k x) := by
  rw [List.find?_map]
  have hg : ((fun p : Product => p.id == k) ∘ bumpStock k x) =
      fun p : Product => p.id == k := by
    funext p
    simp [Function.comp, bumpStock_id]
  rw [hg]

theorem supplier_ref_missing_iff (d : DB) (s : Option Nat) :
    supplier_ref_missing d s = true ↔
      ∃ k, s = some k ∧ supplier_exists d k = false := by
  cases s <;> simp [supplier_ref_missing]

/-- Claim C1: `remove_stock` fails exactly when the quantity is
non-positive, the product does not exist, or the product's current stock is
strictly below the quantity; every failing call leaves the database
unchanged, and a successful call appends exactly one `OUT` transaction with
a null supplier reference and decrements that product's stock by the
quantity, touching nothing else. -/
theorem claim_C1_remove_stock_spec (d : DB) (pid : Nat) (q : Int)
    (t : String) :
    ((remove_stock d pid q t).2 = false ↔
      (q ≤ 0 ∨ product_exists d pid = false ∨
        ∃ w, d.products.find? (fun p => p.id == pid) = some w ∧
          w.stock < q)) ∧
    ((remove_stock d pid q t).2 = false → (remove_stock d pid q t).1 = d) ∧
    ((remove_stock d pid q t).2 = true →
      (remove_stock d pid q t).1 =
        { d with
            transactions := d.transactions ++
              [⟨d.nextTxnId, pid, none, q, t, TxnType.tOUT⟩],
            nextTxnId := d.nextTxnId + 1,
            products := d.products.map (bumpStock pid (-q)) }) ∧
    ((remove_stock d pid q t).2 = true →
      getStock (remove_stock d pid q t).1 pid =
        (getStock d pid).map (fun v => v - q)) := by
  by_cases h1 : q ≤ 0
  · rw [remove_stock_neg_qty d pid q t h1]
    exact ⟨by simp [h1], fun _ => rfl, by simp, by simp⟩
  cases hf : d.products.find? (fun p => p.id == pid) with
  | none =>
    have hex : product_exists d pid = false :=
      (product_exists_false_iff d pid).2 hf
    rw [remove_stock_neg_missing d pid q t h1 hf]
    exact ⟨by simp [hex], fun _ => rfl, by simp, by simp⟩
  | some w =>
    have hex : product_exists d pid = true := by
      cases hpe : product_exists d pid with
      | true => rfl
      | false =>
        rw [(product_exists_false_iff d pid).1 hpe] at hf
        cases hf
    by_cases h3 : w.stock < q
    · rw [remove_stock_neg_short d pid q t w h1 hf h3]
      refine ⟨?_, fun _ => rfl, by simp, by simp⟩
      simp only [iff_true_intro rfl, true_iff]
      exact Or.inr (Or.inr ⟨w, rfl, h3⟩)
    · rw [remove_stock_pos d pid q t w h1 hf h3]
      refine ⟨?_, by simp, fun _ => rfl, ?_⟩
      · refine iff_of_false (by simp) ?_
        rintro (hc | hc | ⟨w2, hw2, hc⟩)
        · exact h1 hc
        · rw [hex] at hc
          cases hc
        · rcases Option.some_inj.1 hw2 with rfl
          exact h3 hc
      · intro _
        have hwid : w.id = pid := by simpa using List.find?_some hf
        have hb : (bumpStock pid (-q) w).stock = w.stock - q := by
          unfold bumpStock
          rw [if_pos hwid]
          show w.stock + -q = w.stock - q
          omega
        simp only [getStock, find?_map_bump, hf]
        simp [hb]

/-- Claim C6: `add_stock` fails exactly when the quantity is non-positive,
the product does not exist, or a supplier is given but does not exist; a
failing call leaves the database unchanged, and a successful call appends
exactly one `IN` transaction carrying the given supplier reference and
increments that product's stock by the quantity, touching nothing else. -/
theorem claim_C6_add_stock_spec (d : DB) (pid : Nat) (s : Option Nat)
    (q : Int) (t : String) :
    ((add_stock d pid s q t).2 = false ↔
      (q ≤ 0 ∨ product_exists d pid = false ∨
        ∃ k, s = some k ∧ supplier_exists d k = false)) ∧
    ((add_stock d pid s q t).2 = false → (add_stock d pid s q t).1 = d) ∧
    ((add_stock d pid s q t).2 = true →
      (add_stock d pid s q t).1 =
        { d with
            transactions := d.transactions ++
              [⟨d.nextTxnId, pid, s, q, t, TxnType.tIN⟩],
            nextTxnId := d.nextTxnId + 1,
            products := d.products.map (bumpStock pid q) }) ∧
    ((add_stock d pid s q t).2 = true →
      getStock (add_stock d pid s q t).1 pid =
        (getStock d pid).map (fun v => v + q)) := by
  by_cases h1 : q ≤ 0
  · rw [add_stock_neg d pid s q t (Or.inl h1)]
    exact ⟨by simp [h1], fun _ => rfl, by simp, by simp⟩
  by_cases h2 : product_exists d pid = true
  case neg =>
    have hex : product_exists d pid = false := by simpa using h2
    rw [add_stock_neg d pid s q t (Or.inr (Or.inl hex))]
    exact ⟨by simp [hex], fun _ => rfl, by simp, by simp⟩
  by_cases h3 : supplier_ref_missing d s = true
  · rw [add_stock_neg d pid s q t (Or.inr (Or.inr h3))]
    refine ⟨?_, fun _ => rfl, by simp, by simp⟩
    simp only [iff_true_intro rfl, true_iff]
    exact Or.inr (Or.inr ((supplier_ref_missing_iff d s).1 h3))
  · rw [add_stock_pos d pid s q t h1 h2 (by simpa using h3)]
    refine ⟨?_, by simp, fun _ => rfl, ?_⟩
    · refine iff_of_false (by simp) ?_
      rintro (hc | hc | hc)
      · exact h1 hc
      · rw [h2] at hc
        cases hc
      · exact h3 ((supplier_ref_missing_iff d s).2 hc)
    · intro _
      simp only [getStock, find?_map_bump]
      cases hf : d.products.find? (fun p => p.id == pid) with
      | none =>
        exfalso
        have hx := (product_exists_false_iff d pid).2 hf
        rw [hx] at h2
        cases h2
      | some w =>
        have hwid : w.id = pid := by simpa using List.find?_some hf
        have hb : (bumpStock pid q w).stock = w.stock + q := by
          unfold bumpStock
          rw [if_pos hwid]
        simp [hb]

/-- Claim C5 as frozen is false: `create_product` stores the stripped name,
not the raw one.  At the concrete input `" a "` (non-empty after trimming)
with price 1 ≥ 0 the call succeeds, but the single inserted row's name is
`"a"`, not the given `" a "`. -/
theorem claim_C5_counterexample :
    (create_product initDB " a " 1).2 = true ∧
    (create_product initDB " a " 1).1.products.map Product.name = ["a"] ∧
    "a" ≠ " a " := by
  exact ⟨by decide, by decide, by decide⟩

/-- Claim C5 (amended): `create_product` fails exactly when the name strips
to empty or the price is negative; a failing call leaves the database
unchanged, and a successful call appends exactly one product row with a
fresh identifier, the **stripped** given name, the given price, and stock
0, touching nothing else. -/
theorem claim_C5_create_product_spec (d : DB) (n : String) (c : Rat) :
    ((create_product d n c).2 = false ↔ (strip n = "" ∨ c < 0)) ∧
    ((create_product d n c).2 = false → (create_product d n c).1 = d) ∧
    ((create_product d n c).2 = true →
      (create_product d n c).1 =
        { d with
            products := d.products ++ [⟨d.nextProductId, strip n, c, 0⟩],
            nextProductId := d.nextProductId + 1 }) := by
  by_cases h1 : strip n = ""
  · rw [create_product_neg d n c (Or.inl h1)]
    exact ⟨by simp [h1], fun _ => rfl, by simp⟩
  by_cases h2 : c < 0
  · rw [create_product_neg d n c (Or.inr h2)]
    exact ⟨by simp [h2], fun _ => rfl, by simp⟩
  · rw [create_product_pos d n c h1 h2]
    refine ⟨?_, by simp, fun _ => rfl⟩
    refine iff_of_false (by simp) ?_
    rintro (hc | hc)
    · exact h1 hc
    · exact h2 hc

/-- Claim C8: `update_product_price` fails exactly when the new price is
negative or the product does not exist, and then changes nothing; on
success it overwrites that product's price with the new price and changes
nothing else — identifiers, names, stocks, the other tables and the
counters all stay as they were. -/
theorem claim_C8_update_price_spec (d : DB) (pid : Nat) (c : Rat) :
    ((update_product_price d pid c).2 = false ↔
      (c < 0 ∨ product_exists d pid = false)) ∧
    ((update_product_price d pid c).2 = false →
      (update_product_price d pid c).1 = d) ∧
    ((update_product_price d pid c).2 = true →
      (update_product_price d pid c).1 =
        { d with products := d.products.map (fun p =>
            if p.id = pid then { p with price := c } else p) }) ∧
    ((update_product_price d pid c).2 = true →
      (update_product_price d pid c).1.products.map Product.id =
          d.products.map Product.id ∧
        (update_product_price d pid c).1.products.map Product.name =
          d.products.map Product.name ∧
        (update_product_price d pid c).1.products.map Product.stock =
          d.products.map Product.stock) := by
  by_cases h1 : c < 0
  · rw [update_product_price_neg d pid c (Or.inl h1)]
    exact ⟨by simp [h1], fun _ => rfl, by simp, by simp⟩
  by_cases h2 : product_exists d pid = true
  case neg =>
    have hex : product_exists d pid = false := by simpa using h2
    rw [update_product_price_neg d pid c (Or.inr hex)]
    exact ⟨by simp [hex], fun _ => rfl, by simp, by simp⟩
  rw [update_product_price_pos d pid c h1 h2]
  refine ⟨?_, by simp, fun _ => rfl, fun _ => ⟨?_, ?_, ?_⟩⟩
  · refine iff_of_false (by simp) ?_
    rintro (hc | hc)
    · exact h1 hc
    · rw [h2] at hc
      cases hc
  · rw [List.map_map]
    exact List.map_congr_left fun p _ => setPrice_id pid c p
  · rw [List.map_map]
    exact List.map_congr_left fun p _ => setPrice_name pid c p
  · rw [List.map_map]
    exact List.map_congr_left fun p _ => setPrice_stock pid c p

/-- Claim C10: `create_product` and `add_supplier` store the stripped form
of their text inputs — a successful call appends exactly the stripped name
(and contact) — and consequently, in every reachable state, no stored
product name, supplier name or supplier contact has leading or trailing
whitespace. -/
theorem claim_C10_trimmed_storage :
    (∀ (d : DB) (n : String) (c : Rat), (create_product d n c).2 = true →
      (create_product d n c).1.products.map Product.name =
        d.products.map Product.name ++ [strip n]) ∧
    (∀ (d : DB) (n c : String), (add_supplier d n c).2 = true →
      (add_supplier d n c).1.suppliers.map (fun s => (s.name, s.contact)) =
        d.suppliers.map (fun s => (s.name, s.contact)) ++
          [(strip n, strip c)]) ∧
    (∀ d : DB, Reachable d →
      (∀ p ∈ d.products, edgeClean p.name) ∧
      (∀ s ∈ d.suppliers, edgeClean s.name ∧ edgeClean s.contact)) := by
  refine ⟨?_, ?_, ?_⟩
  · intro d n c hs
    by_cases h1 : strip n = ""
    · rw [create_product_neg d n c (Or.inl h1)] at hs
      cases hs
    by_cases h2 : c < 0
    · rw [create_product_neg d n c (Or.inr h2)] at hs
      cases hs
    rw [create_product_pos d n c h1 h2]
    simp
  · intro d n c hs
    by_cases h1 : strip n = ""
    · rw [add_supplier_neg d n c (Or.inl h1)] at hs
      cases hs
    by_cases h2 : strip c = ""
    · rw [add_supplier_neg d n c (Or.inr h2)] at hs
      cases hs
    rw [add_supplier_pos d n c h1 h2]
    simp
  · intro d hr
    exact ⟨(inv_of_reachable d hr).names_clean,
      (inv_of_reachable d hr).supp_clean⟩

theorem histLe_trans (a b c : Txn) (h1 : histLe a b = true)
    (h2 : histLe b c = true) : histLe a c = true := by
  simp only [histLe, decide_eq_true_eq] at h1 h2 ⊢
  rcases h1 with h1 | ⟨h1e, h1i⟩
  · rcases h2 with h2 | ⟨h2e, h2i⟩
    · exact Or.inl (h2.trans h1)
    · exact Or.inl (h2e ▸ h1)
  · rcases h2 with h2 | ⟨h2e, h2i⟩
    · exact Or.inl (h2.trans_eq h1e.symm)
    · exact Or.inr ⟨h1e.trans h2e, h2i.trans h1i⟩

theorem histLe_total (a b : Txn) : (histLe a b || histLe b a) = true := by
  simp only [histLe, Bool.or_eq_true, decide_eq_true_eq]
  rcases lt_trichotomy a.date.data b.date.data with h | h | h
  · exact Or.inr (Or.inl h)
  · rcases Nat.le_total b.id a.id with hid | hid
    · exact Or.inl (Or.inr ⟨h, hid⟩)
    · exact Or.inr (Or.inr ⟨h.symm, hid⟩)
  · exact Or.inl (Or.inl h)

/-- Claim C7: `view_products_history` fails exactly when the product does
not exist; otherwise it returns the product's transactions — all of them
and nothing else — ordered by date descending then identifier descending,
each annotated with the referenced supplier's name, with `"N/A"` standing
in for a null or dangling supplier reference. -/
theorem claim_C7_view_history_spec (d : DB) (pid : Nat) :
    (view_products_history d pid = none ↔
      product_exists d pid = false) ∧
    (product_exists d pid = true →
      ∃ l : List Txn,
        l.Perm (d.transactions.filter (fun x => x.productId == pid)) ∧
        l.Pairwise (fun a b => b.date.data < a.date.data ∨
          (a.date.data = b.date.data ∧ b.id ≤ a.id)) ∧
        view_products_history d pid =
          some (l.map (fun x =>
            ⟨x.date, x.quantity, x.type, supplier_label d x.supplierId⟩))) := by
  by_cases he : product_exists d pid = true
  · constructor
    · simp [view_products_history, he]
    · intro _
      refine ⟨(d.transactions.filter
          (fun x => x.productId == pid)).mergeSort histLe,
        List.mergeSort_perm _ _, ?_, by simp [view_products_history, he]⟩
      have hs := List.sorted_mergeSort histLe_trans histLe_total
        (d.transactions.filter (fun x => x.productId == pid))
      exact hs.imp fun h => by simpa [histLe] using h
  · have he' : product_exists d pid = false := by simpa using he
    exact ⟨by simp [view_products_history, he'], fun hc => absurd hc he⟩

/-! ### Reachable-state claims -/

/-- Conclusion of claim C2 at one state: each product's stock equals its
`IN` ledger total minus its `OUT` ledger total. -/
def StockMatchesLedger (d : DB) : Prop :=
  ∀ p ∈ d.products,
    p.stock = qtySum p.id TxnType.tIN d.transactions -
      qtySum p.id TxnType.tOUT d.transactions

/-- Claim C2: in every reachable database state every product's stock is
the sum of its `IN` transaction quantities minus the sum of its `OUT`
transaction quantities; since reachability is closed under all of the
store's operations, every operation preserves this equality. -/
theorem claim_C2_stock_ledger (d : DB) (h : Reachable d) :
    StockMatchesLedger d :=
  (inv_of_reachable d h).stock_eq

/-- Conclusion of claim C3 at one state: stock is never negative. -/
def StockNonneg (d : DB) : Prop :=
  ∀ p ∈ d.products, 0 ≤ p.stock

/-- Claim C3: in every reachable database state every product's stock is
non-negative — in particular `remove_stock` never drives a stock below
zero. -/
theorem claim_C3_stock_nonneg (d : DB) (h : Reachable d) :
    StockNonneg d :=
  (inv_of_reachable d h).stock_nonneg

theorem bumpStock_stock_of_id (k : Nat) (x : Int) (p : Product)
    (h : p.id = k) : (bumpStock k x p).stock = p.stock + x := by
  unfold bumpStock
  rw [if_pos h]

/-- Conclusion of claim C4 at one state and one input: `add_stock` then
`remove_stock` of the same quantity both succeed, restore the product's
stock, and append exactly an `IN` transaction followed by an `OUT`
transaction for that product. -/
def InOutRoundTrip (d : DB) (pid : Nat) (s : Option Nat) (q : Int)
    (t1 t2 : String) : Prop :=
  (add_stock d pid s q t1).2 = true ∧
  (remove_stock (add_stock d pid s q t1).1 pid q t2).2 = true ∧
  getStock (remove_stock (add_stock d pid s q t1).1 pid q t2).1 pid =
    getStock d pid ∧
  (remove_stock (add_stock d pid s q t1).1 pid q t2).1.transactions =
    d.transactions ++
      [⟨d.nextTxnId, pid, s, q, t1, TxnType.tIN⟩,
       ⟨d.nextTxnId + 1, pid, none, q, t2, TxnType.tOUT⟩]

/-- Claim C4: in a reachable state, for an existing product, a valid
(possibly absent) supplier reference and a positive quantity, adding and
then removing that quantity of stock both succeed, return the product's
stock to its prior value, and leave exactly one `IN` then one `OUT`
transaction more for that product. -/
theorem claim_C4_roundtrip (d : DB) (pid : Nat) (s : Option Nat) (q : Int)
    (t1 t2 : String) (hr : Reachable d)
    (hp : product_exists d pid = true)
    (hs : supplier_ref_missing d s = false) (hq : 0 < q) :
    InOutRoundTrip d pid s q t1 t2 := by
  have h1 : ¬ q ≤ 0 := by omega
  have hpos := add_stock_pos d pid s q t1 h1 hp hs
  have hex : (d.products.find? (fun p => p.id == pid)).isSome := by
    rw [List.find?_isSome]
    obtain ⟨e, he, hide⟩ := (product_exists_iff d pid).1 hp
    exact ⟨e, he, by simp [hide]⟩
  obtain ⟨w, hw⟩ := Option.isSome_iff_exists.1 hex
  have hwid : w.id = pid := by simpa using List.find?_some hw
  have hwmem : w ∈ d.products := List.mem_of_find?_eq_some hw
  have hwnn : 0 ≤ w.stock := (inv_of_reachable d hr).stock_nonneg w hwmem
  have hd1p : (add_stock d pid s q t1).1.products =
      d.products.map (bumpStock pid q) := by rw [hpos]
  have hd1t : (add_stock d pid s q t1).1.transactions =
      d.transactions ++ [⟨d.nextTxnId, pid, s, q, t1, TxnType.tIN⟩] := by
    rw [hpos]
  have hd1n : (add_stock d pid s q t1).1.nextTxnId = d.nextTxnId + 1 := by
    rw [hpos]
  have hd1b : (add_stock d pid s q t1).2 = true := by rw [hpos]
  have hw1 : (add_stock d pid s q t1).1.products.find?
      (fun p => p.id == pid) = some (bumpStock pid q w) := by
    rw [hd1p, find?_map_bump, hw]
    rfl
  have hbs : (bumpStock pid q w).stock = w.stock + q :=
    bumpStock_stock_of_id pid q w hwid
  have hxid : (bumpStock pid q w).id = pid :=
    (bumpStock_id pid q w).trans hwid
  have hrem := remove_stock_pos (add_stock d pid s q t1).1 pid q t2
    (bumpStock pid q w) h1 hw1 (by rw [hbs]; omega)
  have hd2b : (remove_stock (add_stock d pid s q t1).1 pid q t2).2 =
      true := by rw [hrem]
  have hd2p : (remove_stock (add_stock d pid s q t1).1 pid q t2).1.products =
      (add_stock d pid s q t1).1.products.map (bumpStock pid (-q)) := by
    rw [hrem]
  have hd2t :
      (remove_stock (add_stock d pid s q t1).1 pid q t2).1.transactions =
      (add_stock d pid s q t1).1.transactions ++
        [⟨(add_stock d pid s q t1).1.nextTxnId, pid, none, q, t2,
          TxnType.tOUT⟩] := by
    rw [hrem]
  refine ⟨hd1b, hd2b, ?_, ?_⟩
  · have hfinal : (bumpStock pid (-q) (bumpStock pid q w)).stock =
        w.stock := by
      rw [bumpStock_stock_of_id pid (-q) _ hxid, hbs]
      omega
    rw [getStock, hd2p, hd1p, find?_map_bump, find?_map_bump, hw,
      getStock, hw]
    simp [hfinal]
  · rw [hd2t, hd1t, hd1n]
    simp

/-- Conclusion of claim C9 at one state and one input: `del_supplier`
fails exactly on a missing supplier and then changes nothing; on success
there is exactly one matching supplier row, precisely the matching rows
disappear, and products, transactions and all counters are untouched. -/
def DelSupplierSpec (d : DB) (k : Nat) : Prop :=
  ((del_supplier d k).2 = false ↔ supplier_exists d k = false) ∧
  ((del_supplier d k).2 = false → (del_supplier d k).1 = d) ∧
  ((del_supplier d k).2 = true →
    ∃ s, s ∈ d.suppliers ∧ s.id = k ∧
      d.suppliers.filter (fun x => x.id == k) = [s] ∧
      (del_supplier d k).1.suppliers =
        d.suppliers.filter (fun x => ! (x.id == k)) ∧
      (del_supplier d k).1.products = d.products ∧
      (del_supplier d k).1.transactions = d.transactions ∧
      (del_supplier d k).1.nextProductId = d.nextProductId ∧
      (del_supplier d k).1.nextSupplierId = d.nextSupplierId ∧
      (del_supplier d k).1.nextTxnId = d.nextTxnId)

/-- Claim C9: in a reachable state `del_supplier` fails without mutating
anything exactly when the supplier is missing; on success it removes that
single supplier row and nothing else — every transaction (orphaned or
not) and every product survives unchanged. -/
theorem claim_C9_del_supplier_spec (d : DB) (k : Nat)
    (hr : Reachable d) : DelSupplierSpec d k := by
  unfold DelSupplierSpec
  by_cases h1 : supplier_exists d k = true
  case neg =>
    have hex : supplier_exists d k = false := by simpa using h1
    rw [del_supplier_neg d k hex]
    exact ⟨by simp [hex], fun _ => rfl, by simp⟩
  rw [del_supplier_pos d k h1]
  obtain ⟨s, hs, hsid⟩ := (supplier_exists_iff d k).1 h1
  refine ⟨by simp [h1], by simp,
    fun _ => ⟨s, hs, hsid, ?_, rfl, rfl, rfl, rfl, rfl, rfl⟩⟩
  have hone := filter_key_eq Supplier.id d.suppliers s
    (inv_of_reachable d hr).suppId_nodup hs
  rw [hsid] at hone
  exact hone

/-! ### A concrete reachable state, used to instantiate the
hypothesis-carrying theorems -/

/-- One product "Widget" at price 5. -/
def exDB1 : DB := (create_product initDB "Widget" 5).1

/-- Additionally one supplier "Acme". -/
def exDB2 : DB := (add_supplier exDB1 "Acme" "acme@example.com").1

/-- Additionally an inbound transaction of 3 units from the supplier. -/
def exDB3 : DB := (add_stock exDB2 1 (some 1) 3 "2024-01-01").1

/-- Additionally an outbound transaction of 2 units. -/
def exDB4 : DB := (remove_stock exDB3 1 2 "2024-01-02").1

theorem reachable_exDB4 : Reachable exDB4 :=
  Reachable.step_remove_stock exDB3 1 2 "2024-01-02"
    (Reachable.step_add_stock exDB2 1 (some 1) 3 "2024-01-01"
      (Reachable.step_add_supplier exDB1 "Acme" "acme@example.com"
        (Reachable.step_create_product initDB "Widget" 5 Reachable.init)))

theorem claim_C2_witness : StockMatchesLedger exDB4 :=
  claim_C2_stock_ledger exDB4 reachable_exDB4

theorem claim_C3_witness : StockNonneg exDB4 :=
  claim_C3_stock_nonneg exDB4 reachable_exDB4

theorem claim_C4_witness :
    InOutRoundTrip exDB4 1 (some 1) 5 "2024-02-01" "2024-02-02" :=
  claim_C4_roundtrip exDB4 1 (some 1) 5 "2024-02-01" "2024-02-02"
    reachable_exDB4 (by decide) (by decide) (by decide)

theorem claim_C9_witness : DelSupplierSpec exDB4 1 :=
  claim_C9_del_supplier_spec exDB4 1 reachable_exDB4
